import Mathlib

/-!
Shallow embedding of the synchronization orchestration engine of the
`vscode-watch-sync` extension: the sync state machine, the sync-job
lifecycle, the rsync command builder, the change-event aggregator of the
inotify watcher, the strategy selector, the rsync exit-code
classification and the credential prompt flow.  Each definition is a
direct translation of the corresponding TypeScript source.
-/

/-- The seven orchestrator states (`SyncState` in `core/types`). -/
inductive SyncState where
  | idle
  | initializing
  | connecting
  | watching
  | syncing
  | error
  | recovering
deriving DecidableEq, Repr

/-- The `VALID_TRANSITIONS` table of `SyncStateMachine`. -/
def VALID_TRANSITIONS : SyncState → List SyncState
  | .idle => [.initializing]
  | .initializing => [.connecting, .error, .idle]
  | .connecting => [.watching, .error, .idle]
  | .watching => [.syncing, .error, .idle]
  | .syncing => [.watching, .error]
  | .error => [.recovering, .idle]
  | .recovering => [.watching, .error, .idle]

/-- The `Profile` entity (only its data, which is immutable in the source;
`ProfileConfig` carries the same fields). -/
structure Profile where
  profileAlias : String
  remoteUser : String
  remoteHost : String
  remoteDir : String
  localDir : String
  sshPort : Nat
  exclude : List String
deriving DecidableEq, Repr

/-- The mutable fields of `SyncStateMachine` (`_state`, `_profile`,
`_lastError`, `_retryCount`). -/
structure SyncStateMachine where
  state : SyncState
  profile : Option Profile
  lastError : Option String
  retryCount : Nat
deriving DecidableEq, Repr

/-- The fresh machine: field initializers of the `SyncStateMachine` class. -/
def SyncStateMachine.initial : SyncStateMachine :=
  { state := .idle, profile := none, lastError := none, retryCount := 0 }

/-- The optional `context` argument of `transition`.  In the source,
`context?.error` is only consulted when truthy, so an empty string is
ignored; a profile object is always truthy. -/
structure TransitionContext where
  profile : Option Profile
  error : Option String
deriving DecidableEq, Repr

/-- The empty context (`transition(newState)` with no context). -/
def TransitionContext.none : TransitionContext :=
  { profile := Option.none, error := Option.none }

/-- Source `SyncStateMachine.canTransitionTo`. -/
def SyncStateMachine.canTransitionTo (m : SyncStateMachine) (t : SyncState) : Bool :=
  (VALID_TRANSITIONS m.state).contains t

/-- The state-mutating body of `SyncStateMachine.transition`, run after the
validity guard: assign the new state, apply the truthy context fields, reset
the retry counter on `watching`, increment it on `recovering`, and clear
profile, last error and retry counter on `idle`. -/
def SyncStateMachine.applyTransition (m : SyncStateMachine) (t : SyncState)
    (ctx : TransitionContext) : SyncStateMachine :=
  let m1 : SyncStateMachine := { m with state := t }
  let m2 : SyncStateMachine :=
    match ctx.profile with
    | some p => { m1 with profile := some p }
    | none => m1
  let m3 : SyncStateMachine :=
    match ctx.error with
    | some e => if e = "" then m2 else { m2 with lastError := some e }
    | none => m2
  let m4 : SyncStateMachine :=
    if t = SyncState.watching then { m3 with retryCount := 0 } else m3
  let m5 : SyncStateMachine :=
    if t = SyncState.recovering then { m4 with retryCount := m4.retryCount + 1 } else m4
  if t = SyncState.idle then
    { m5 with profile := Option.none, lastError := Option.none, retryCount := 0 }
  else m5

/-- Source `SyncStateMachine.transition`: returns `false` and leaves the machine
untouched when the target is not in `VALID_TRANSITIONS`, otherwise mutates
and returns `true`. -/
def SyncStateMachine.transition (m : SyncStateMachine) (t : SyncState)
    (ctx : TransitionContext) : Bool × SyncStateMachine :=
  if m.canTransitionTo t then (true, m.applyTransition t ctx) else (false, m)

/-- Source `SyncStateMachine.reset`: unconditionally back to a cleared idle state. -/
def SyncStateMachine.reset (_ : SyncStateMachine) : SyncStateMachine :=
  SyncStateMachine.initial

theorem applyTransition_state (m : SyncStateMachine) (t : SyncState)
    (ctx : TransitionContext) : (m.applyTransition t ctx).state = t := by
  unfold SyncStateMachine.applyTransition
  cases ctx.profile <;> cases ctx.error <;> dsimp only <;> split_ifs <;> rfl

/-- C1: `transition(t)` succeeds (returns `true` and sets the state to `t`)
iff `t` is listed for the current state in `VALID_TRANSITIONS`; otherwise it
returns `false` and leaves state, profile, lastError and retryCount
unchanged. -/
theorem transition_legal_iff (m : SyncStateMachine) (t : SyncState)
    (ctx : TransitionContext) :
    (((m.transition t ctx).1 = true ∧ (m.transition t ctx).2.state = t) ↔
      t ∈ VALID_TRANSITIONS m.state) ∧
    (t ∉ VALID_TRANSITIONS m.state → m.transition t ctx = (false, m)) := by
  unfold SyncStateMachine.transition SyncStateMachine.canTransitionTo
  by_cases h : t ∈ VALID_TRANSITIONS m.state
  · simp [h, applyTransition_state]
  · simp [h]

/-- Witness for C1 at the concrete input from the claim: from `idle`,
`transition(watching)` fails and the machine (state included) is unchanged. -/
theorem transition_legal_iff_witness :
    SyncStateMachine.transition SyncStateMachine.initial SyncState.watching
      TransitionContext.none = (false, SyncStateMachine.initial) :=
  (transition_legal_iff SyncStateMachine.initial SyncState.watching
      TransitionContext.none).2 (by decide)

theorem applyTransition_watching_retryCount (m : SyncStateMachine)
    (ctx : TransitionContext) :
    (m.applyTransition SyncState.watching ctx).retryCount = 0 := by
  unfold SyncStateMachine.applyTransition
  cases ctx.profile <;> cases ctx.error <;> dsimp only <;> split_ifs <;> simp_all

theorem applyTransition_recovering_retryCount (m : SyncStateMachine)
    (ctx : TransitionContext) :
    (m.applyTransition SyncState.recovering ctx).retryCount = m.retryCount + 1 := by
  unfold SyncStateMachine.applyTransition
  cases ctx.profile <;> cases ctx.error <;> dsimp only <;> split_ifs <;> simp_all

theorem applyTransition_idle_clears (m : SyncStateMachine)
    (ctx : TransitionContext) :
    (m.applyTransition SyncState.idle ctx).profile = none ∧
    (m.applyTransition SyncState.idle ctx).lastError = none ∧
    (m.applyTransition SyncState.idle ctx).retryCount = 0 := by
  unfold SyncStateMachine.applyTransition
  cases ctx.profile <;> cases ctx.error <;> dsimp only <;> split_ifs <;> simp_all

/-- C8: every successful transition into `watching` leaves `retryCount = 0`;
every successful transition into `recovering` increments `retryCount` by
exactly 1; every transition into `idle` clears the active profile, the last
error and the retry counter. -/
theorem transition_counter_effects (m : SyncStateMachine) (ctx : TransitionContext) :
    ((m.transition SyncState.watching ctx).1 = true →
      (m.transition SyncState.watching ctx).2.retryCount = 0) ∧
    ((m.transition SyncState.recovering ctx).1 = true →
      (m.transition SyncState.recovering ctx).2.retryCount = m.retryCount + 1) ∧
    ((m.transition SyncState.idle ctx).1 = true →
      (m.transition SyncState.idle ctx).2.profile = none ∧
      (m.transition SyncState.idle ctx).2.lastError = none ∧
      (m.transition SyncState.idle ctx).2.retryCount = 0) := by
  refine ⟨?_, ?_, ?_⟩ <;> intro h
  · by_cases hc : m.canTransitionTo SyncState.watching = true
    · simp [SyncStateMachine.transition, hc, applyTransition_watching_retryCount]
    · simp [SyncStateMachine.transition, hc] at h
  · by_cases hc : m.canTransitionTo SyncState.recovering = true
    · simp [SyncStateMachine.transition, hc, applyTransition_recovering_retryCount]
    · simp [SyncStateMachine.transition, hc] at h
  · by_cases hc : m.canTransitionTo SyncState.idle = true
    · simp only [SyncStateMachine.transition, hc, if_pos]
      exact applyTransition_idle_clears m ctx
    · simp [SyncStateMachine.transition, hc] at h

/-- A machine sitting in `connecting` with a profile, an old error and a
positive retry count, used to witness the counter effects concretely. -/
def connectingMachine : SyncStateMachine :=
  { state := SyncState.connecting,
    profile := some { profileAlias := "demo", remoteUser := "deploy",
                      remoteHost := "prod.example.com", remoteDir := "/var/www/app",
                      localDir := "/local/path", sshPort := 22,
                      exclude := [".git", "node_modules"] },
    lastError := some "old error",
    retryCount := 2 }

/-- Witness for C8: entering `watching` from `connecting` zeroes the
counter; entering `recovering` from `error` bumps it from 2 to 3; entering
`idle` from `error` clears everything. -/
theorem transition_counter_effects_witness :
    ((connectingMachine.transition SyncState.watching TransitionContext.none).2.retryCount = 0) ∧
    (({ connectingMachine with state := SyncState.error }.transition
        SyncState.recovering TransitionContext.none).2.retryCount = 2 + 1) ∧
    (({ connectingMachine with state := SyncState.error }.transition
        SyncState.idle TransitionContext.none).2.profile = none ∧
      ({ connectingMachine with state := SyncState.error }.transition
        SyncState.idle TransitionContext.none).2.lastError = none ∧
      ({ connectingMachine with state := SyncState.error }.transition
        SyncState.idle TransitionContext.none).2.retryCount = 0) :=
  ⟨(transition_counter_effects connectingMachine TransitionContext.none).1 (by decide),
   (transition_counter_effects { connectingMachine with state := SyncState.error }
      TransitionContext.none).2.1 (by decide),
   (transition_counter_effects { connectingMachine with state := SyncState.error }
      TransitionContext.none).2.2 (by decide)⟩

/-- Source `SyncJobStatus` from the `SyncJob` entity. -/
inductive SyncJobStatus where
  | pending
  | running
  | completed
  | failed
deriving DecidableEq, Repr

/-- Source `SyncStrategy` from the `SyncJob` entity. -/
inductive SyncStrategy where
  | full
  | incremental
deriving DecidableEq, Repr

/-- Rendering of a status used in the lifecycle error messages. -/
def SyncJobStatus.text : SyncJobStatus → String
  | .pending => "pending"
  | .running => "running"
  | .completed => "completed"
  | .failed => "failed"

/-- The `SyncJob` entity: readonly fields plus the mutable lifecycle fields.
`Date` timestamps are modelled as `Option Nat` milliseconds supplied by the
caller of each lifecycle method. -/
structure SyncJob where
  id : String
  profile : Profile
  files : List String
  strategy : SyncStrategy
  status : SyncJobStatus
  startedAt : Option Nat
  completedAt : Option Nat
  error : Option String
  filesTransferred : Nat
  bytesTransferred : Nat
deriving DecidableEq, Repr

/-- The `SyncJob` constructor: files default to `[]`, strategy defaults to
`incremental` when a non-empty file list is passed and `full` otherwise;
all lifecycle fields start in their initial values. -/
def SyncJob.make (id : String) (profile : Profile) (files : List String)
    (strategy : Option SyncStrategy) : SyncJob :=
  { id := id, profile := profile, files := files,
    strategy := strategy.getD (if files.length > 0 then .incremental else .full),
    status := .pending, startedAt := none, completedAt := none, error := none,
    filesTransferred := 0, bytesTransferred := 0 }

/-- Source `SyncJob.start`: throws unless the job is `pending`, else marks it
`running` and records the start time. -/
def SyncJob.start (j : SyncJob) (now : Nat) : Except String SyncJob :=
  if j.status ≠ SyncJobStatus.pending then
    .error ("Cannot start job in " ++ j.status.text ++ " status")
  else
    .ok { j with status := .running, startedAt := some now }

/-- Source `SyncJob.complete`: throws unless the job is `running`, else marks it
`completed` and records the completion time and the transfer counters. -/
def SyncJob.complete (j : SyncJob) (now filesTransferred bytesTransferred : Nat) :
    Except String SyncJob :=
  if j.status ≠ SyncJobStatus.running then
    .error ("Cannot complete job in " ++ j.status.text ++ " status")
  else
    .ok { j with status := .completed, completedAt := some now,
                 filesTransferred := filesTransferred,
                 bytesTransferred := bytesTransferred }

/-- Source `SyncJob.fail`: throws unless the job is `running`, else marks it
`failed` and records the completion time and the error message. -/
def SyncJob.fail (j : SyncJob) (now : Nat) (error : String) : Except String SyncJob :=
  if j.status ≠ SyncJobStatus.running then
    .error ("Cannot fail job in " ++ j.status.text ++ " status")
  else
    .ok { j with status := .failed, completedAt := some now, error := some error }

/-- C7: `start` raises exactly when the job is not `pending`, and
`complete`/`fail` raise exactly when the job is not `running`; a raising call
produces no updated job, so the job's status and lifecycle fields are
untouched, and a succeeding call moves the status along
pending→running→{completed|failed}. -/
theorem syncJob_lifecycle (j : SyncJob) (now fT bT : Nat) (msg : String) :
    ((∃ e, j.start now = Except.error e) ↔ j.status ≠ SyncJobStatus.pending) ∧
    ((∃ e, j.complete now fT bT = Except.error e) ↔ j.status ≠ SyncJobStatus.running) ∧
    ((∃ e, j.fail now msg = Except.error e) ↔ j.status ≠ SyncJobStatus.running) ∧
    (∀ j', j.start now = Except.ok j' →
      j.status = SyncJobStatus.pending ∧ j'.status = SyncJobStatus.running) ∧
    (∀ j', j.complete now fT bT = Except.ok j' →
      j.status = SyncJobStatus.running ∧ j'.status = SyncJobStatus.completed) ∧
    (∀ j', j.fail now msg = Except.ok j' →
      j.status = SyncJobStatus.running ∧ j'.status = SyncJobStatus.failed) := by
  unfold SyncJob.start SyncJob.complete SyncJob.fail
  by_cases hp : j.status = SyncJobStatus.pending <;>
    by_cases hr : j.status = SyncJobStatus.running
  · rw [hp] at hr; exact absurd hr (by decide)
  all_goals refine ⟨?_, ?_, ?_, ?_, ?_, ?_⟩ <;> simp_all <;> intro j' hj' <;>
    simp [← hj']

/-- The demo profile of the spec's test properties. -/
def demoProfile : Profile :=
  { profileAlias := "demo", remoteUser := "deploy",
    remoteHost := "prod.example.com", remoteDir := "/var/www/app",
    localDir := "/local/path", sshPort := 22, exclude := [".git", "node_modules"] }

/-- A concrete pending job for exercising the lifecycle. -/
def pendingJob : SyncJob :=
  SyncJob.make "sync_1" demoProfile [] (some SyncStrategy.full)

/-- The job `pendingJob.start 5` produces. -/
def startedJob : SyncJob :=
  { pendingJob with status := SyncJobStatus.running, startedAt := some 5 }

/-- Witness for C7: the concrete pending job starts successfully into
`running`, and a `complete` call on it while still `pending` raises. -/
theorem syncJob_lifecycle_witness :
    (pendingJob.status = SyncJobStatus.pending ∧
      startedJob.status = SyncJobStatus.running) ∧
    (pendingJob.status ≠ SyncJobStatus.running) :=
  ⟨(syncJob_lifecycle pendingJob 5 0 0 "e").2.2.2.1 startedJob (by rfl),
   ((syncJob_lifecycle pendingJob 5 0 0 "e").2.1).mp
      ⟨"Cannot complete job in pending status", by rfl⟩⟩

/-- Source `IncrementalSyncStrategy.canHandle`: a non-empty file list requested as
incremental. -/
def IncrementalSyncStrategy.canHandle (j : SyncJob) : Bool :=
  decide (j.files.length > 0) && decide (j.strategy = SyncStrategy.incremental)

/-- Source `FullSyncStrategy.canHandle`: an empty file list, or a job requested as
full. -/
def FullSyncStrategy.canHandle (j : SyncJob) : Bool :=
  decide (j.files.length = 0) || decide (j.strategy = SyncStrategy.full)

/-- Source `canHandle` of a strategy object by its position in `SyncService`'s
preference-ordered `strategies` list. -/
def strategyCanHandle : SyncStrategy → SyncJob → Bool
  | .incremental, j => IncrementalSyncStrategy.canHandle j
  | .full, j => FullSyncStrategy.canHandle j

/-- The `strategies` list of `SyncService`, in order of preference. -/
def syncServiceStrategies : List SyncStrategy :=
  [SyncStrategy.incremental, SyncStrategy.full]

/-- Source `SyncService.selectStrategy`: first strategy whose `canHandle` accepts
the job, falling back to the last strategy (full) if none does. -/
def selectStrategy (j : SyncJob) : SyncStrategy :=
  match syncServiceStrategies.find? (fun s => strategyCanHandle s j) with
  | some s => s
  | none => SyncStrategy.full

/-- An incremental job carrying one file, on which `FullSyncStrategy`
declines. -/
def incrementalJob : SyncJob :=
  SyncJob.make "sync_2" demoProfile ["a.txt"] (some SyncStrategy.incremental)

/-- Counterexample to C9 as stated: `FullSyncStrategy.canHandle` is not true
for every job; it returns `false` on a job with a non-empty file list and
incremental strategy. -/
theorem fullSync_canHandle_counterexample :
    FullSyncStrategy.canHandle incrementalJob = false := by decide

/-- C9 amended: `FullSyncStrategy.canHandle` accepts exactly the jobs whose
file list is empty or whose strategy is `full`; the selector nevertheless
always finds a strategy that declares it can handle the job, because
`IncrementalSyncStrategy.canHandle` accepts exactly the remaining jobs. -/
theorem selectStrategy_total (j : SyncJob) :
    (FullSyncStrategy.canHandle j = true ↔
      (j.files.length = 0 ∨ j.strategy = SyncStrategy.full)) ∧
    strategyCanHandle (selectStrategy j) j = true := by
  constructor
  · simp [FullSyncStrategy.canHandle]
  · unfold selectStrategy syncServiceStrategies
    cases hf : j.files with
    | nil =>
        cases hs : j.strategy <;>
          simp [List.find?, strategyCanHandle, IncrementalSyncStrategy.canHandle,
            FullSyncStrategy.canHandle, hf, hs]
    | cons a l =>
        cases hs : j.strategy <;>
          simp [List.find?, strategyCanHandle, IncrementalSyncStrategy.canHandle,
            FullSyncStrategy.canHandle, hf, hs]

/-- The `RECOVERABLE_EXIT_CODES` list of `RsyncError`. -/
def RECOVERABLE_EXIT_CODES : List Nat := [12, 23, 24, 30, 35]

/-- The `recoverable` flag computed by the `RsyncError` constructor from the
exit code. -/
def rsyncRecoverable (exitCode : Nat) : Bool :=
  RECOVERABLE_EXIT_CODES.contains exitCode

/-- C6: exit codes 23, 24, 30 and 35 are classified recoverable; exit code 1
is classified terminal. -/
theorem rsync_exit_code_classification :
    rsyncRecoverable 23 = true ∧ rsyncRecoverable 24 = true ∧
    rsyncRecoverable 30 = true ∧ rsyncRecoverable 35 = true ∧
    rsyncRecoverable 1 = false := by decide

/-- Source `SpawnArgs` from `core/types`: program, argument vector and optional
working directory. -/
structure SpawnArgs where
  command : String
  args : List String
  cwd : Option String
deriving DecidableEq, Repr

/-- Source `PathUtils.ensureTrailingSlash` (with `path.sep = "/"`, the extension
being Linux-only: it drives `inotifywait` and `rsync`).  `endsWith(path.sep)`
for the one-character separator is the last-character test. -/
def ensureTrailingSlash (inputPath : String) : String :=
  if inputPath.data.getLast? = some '/' then inputPath else inputPath ++ "/"

/-- Source `RsyncCommandBuilder.buildBaseArgs`: archive and compress flags, the
`-e ssh` transport with port and host-key policy, then one
`--exclude PATTERN` pair per pattern. -/
def buildBaseArgs (profile : Profile) : List String :=
  let args := ["-a", "-z",
    "-e", "ssh -p " ++ toString profile.sshPort ++ " -o StrictHostKeyChecking=accept-new"]
  args ++ profile.exclude.foldl (fun acc pattern => acc ++ ["--exclude", pattern]) []

/-- Source `RsyncCommandBuilder.buildRemoteDestination`. -/
def buildRemoteDestination (profile : Profile) : String :=
  profile.remoteUser ++ "@" ++ profile.remoteHost ++ ":" ++
    ensureTrailingSlash profile.remoteDir

/-- Source `RsyncCommandBuilder.buildFullSync`. -/
def buildFullSync (profile : Profile) : SpawnArgs :=
  { command := "rsync",
    args := buildBaseArgs profile ++
      ["--delete", ensureTrailingSlash profile.localDir, buildRemoteDestination profile],
    cwd := none }

/-- Source `RsyncCommandBuilder.buildIncrementalSync`: empty file list falls back to
a full sync; otherwise `--files-from=-` with the local directory as working
directory. -/
def buildIncrementalSync (profile : Profile) (files : List String) : SpawnArgs :=
  if files.length = 0 then buildFullSync profile
  else
    { command := "rsync",
      args := buildBaseArgs profile ++
        ["--files-from=-", ensureTrailingSlash profile.localDir,
         buildRemoteDestination profile],
      cwd := some profile.localDir }

theorem buildFullSync_demo_args :
    (buildFullSync demoProfile).args =
      ["-a", "-z", "-e", "ssh -p 22 -o StrictHostKeyChecking=accept-new",
       "--exclude", ".git", "--exclude", "node_modules",
       "--delete", "/local/path/", "deploy@prod.example.com:/var/www/app/"] := by
  decide

/-- C4: for the demo profile the full-sync command carries the `--delete`
mirror-deletion flag, one `--exclude` pair per pattern (and only those two),
the source `"/local/path/"` with its trailing separator, and the destination
`"deploy@prod.example.com:/var/www/app/"` — source and destination being the
final two arguments. -/
theorem buildFullSync_demo_spec :
    "--delete" ∈ (buildFullSync demoProfile).args ∧
    ["--exclude", ".git"] <:+: (buildFullSync demoProfile).args ∧
    ["--exclude", "node_modules"] <:+: (buildFullSync demoProfile).args ∧
    (buildFullSync demoProfile).args.count "--exclude" = 2 ∧
    ["/local/path/", "deploy@prod.example.com:/var/www/app/"] <:+
      (buildFullSync demoProfile).args := by
  rw [buildFullSync_demo_args]
  refine ⟨by decide, ⟨["-a", "-z", "-e",
      "ssh -p 22 -o StrictHostKeyChecking=accept-new"],
      ["--exclude", "node_modules", "--delete", "/local/path/",
       "deploy@prod.example.com:/var/www/app/"], rfl⟩,
    ⟨["-a", "-z", "-e", "ssh -p 22 -o StrictHostKeyChecking=accept-new",
      "--exclude", ".git"],
      ["--delete", "/local/path/", "deploy@prod.example.com:/var/www/app/"], rfl⟩,
    by decide,
    ⟨["-a", "-z", "-e", "ssh -p 22 -o StrictHostKeyChecking=accept-new",
      "--exclude", ".git", "--exclude", "node_modules", "--delete"], rfl⟩⟩

/-- C5: for every profile, an incremental sync with an empty file list is
exactly the full-sync command specification. -/
theorem buildIncrementalSync_nil_eq_full (profile : Profile) :
    buildIncrementalSync profile [] = buildFullSync profile := by
  simp [buildIncrementalSync]

/-- Source `FileChangeType` from `core/types`. -/
inductive FileChangeType where
  | create
  | modify
  | delete
  | move
deriving DecidableEq, Repr

/-- Source `FileChangeEvent` from `core/types` (timestamp in milliseconds). -/
structure FileChangeEvent where
  type : FileChangeType
  path : String
  timestamp : Nat
deriving DecidableEq, Repr

/-- Source `InotifyWatcher.queueEvent`: the `pendingEvents` JS `Map` keyed by path,
modelled as an insertion-ordered association list with unique keys.
`Map.set` overwrites in place when the key exists and appends otherwise. -/
def InotifyWatcher.queueEvent (pendingEvents : List (String × FileChangeEvent))
    (event : FileChangeEvent) : List (String × FileChangeEvent) :=
  if pendingEvents.any (fun kv => kv.1 = event.path) then
    pendingEvents.map (fun kv => if kv.1 = event.path then (kv.1, event) else kv)
  else
    pendingEvents ++ [(event.path, event)]

/-- The accepted events of one quiet window queued in arrival order. -/
def InotifyWatcher.queueEvents (pendingEvents : List (String × FileChangeEvent))
    (events : List FileChangeEvent) : List (String × FileChangeEvent) :=
  events.foldl InotifyWatcher.queueEvent pendingEvents

/-- Source `InotifyWatcher.flushEvents`: the batch fired to `onDidChange`, i.e. the
values of the pending map (an empty list means nothing is fired). -/
def InotifyWatcher.flushEvents
    (pendingEvents : List (String × FileChangeEvent)) : List FileChangeEvent :=
  pendingEvents.map (fun kv => kv.2)

/-- Invariant of the pending map: unique keys, each value recorded under its
own path. -/
def PendingInv (pendingEvents : List (String × FileChangeEvent)) : Prop :=
  (pendingEvents.map Prod.fst).Nodup ∧ ∀ kv ∈ pendingEvents, kv.2.path = kv.1

theorem queueEvent_inv {pendingEvents : List (String × FileChangeEvent)}
    (h : PendingInv pendingEvents) (event : FileChangeEvent) :
    PendingInv (InotifyWatcher.queueEvent pendingEvents event) := by
  obtain ⟨hnd, hcons⟩ := h
  unfold InotifyWatcher.queueEvent
  split_ifs with hany
  · constructor
    · have : (pendingEvents.map
          (fun kv => if kv.1 = event.path then (kv.1, event) else kv)).map Prod.fst =
          pendingEvents.map Prod.fst := by
        rw [List.map_map]
        refine List.map_congr_left ?_
        intro kv _
        by_cases hk : kv.1 = event.path <;> simp [hk]
      rw [this]; exact hnd
    · intro kv hkv
      rw [List.mem_map] at hkv
      obtain ⟨kv', hkv', heq⟩ := hkv
      by_cases hk : kv'.1 = event.path
      · simp only [hk, if_pos] at heq
        subst heq; simpa using hk
      · simp only [hk, if_neg, not_false_iff] at heq
        subst heq; exact hcons kv' hkv'
  · constructor
    · rw [List.map_append]
      simp only [List.map_cons, List.map_nil]
      rw [List.nodup_append]
      refine ⟨hnd, List.nodup_singleton _, ?_⟩
      intro k hk
      simp only [List.mem_singleton]
      intro hkeq
      apply hany
      rw [List.any_eq_true]
      rw [List.mem_map] at hk
      obtain ⟨kv, hkv, hfst⟩ := hk
      exact ⟨kv, hkv, by simp [hfst, hkeq]⟩
    · intro kv hkv
      rw [List.mem_append] at hkv
      rcases hkv with h1 | h1
      · exact hcons kv h1
      · simp only [List.mem_singleton] at h1
        subst h1; rfl

theorem queueEvents_inv {pendingEvents : List (String × FileChangeEvent)}
    (h : PendingInv pendingEvents) (events : List FileChangeEvent) :
    PendingInv (InotifyWatcher.queueEvents pendingEvents events) := by
  induction events generalizing pendingEvents with
  | nil => exact h
  | cons e rest ih => exact ih (queueEvent_inv h e)

theorem flush_filter_eq {pendingEvents : List (String × FileChangeEvent)}
    (hcons : ∀ kv ∈ pendingEvents, kv.2.path = kv.1) (p : String) :
    (InotifyWatcher.flushEvents pendingEvents).filter (fun ev => ev.path = p) =
      (pendingEvents.filter (fun kv => kv.1 = p)).map (fun kv => kv.2) := by
  induction pendingEvents with
  | nil => rfl
  | cons kv rest ih =>
    have hk : kv.2.path = kv.1 := hcons kv (List.mem_cons_self kv rest)
    have hrest : ∀ kv' ∈ rest, kv'.2.path = kv'.1 :=
      fun kv' h => hcons kv' (List.mem_cons_of_mem kv h)
    unfold InotifyWatcher.flushEvents at *
    simp only [List.map_cons, List.filter_cons, hk]
    by_cases hp : kv.1 = p <;> simp [hp, ih hrest]

theorem filter_map_update_ne {l : List (String × FileChangeEvent)} {q p : String}
    (hqp : q ≠ p) (event : FileChangeEvent) :
    (l.map (fun kv => if kv.1 = q then (kv.1, event) else kv)).filter
        (fun kv => kv.1 = p) =
      l.filter (fun kv => kv.1 = p) := by
  induction l with
  | nil => rfl
  | cons kv rest ih =>
    simp only [List.map_cons, List.filter_cons]
    by_cases hk : kv.1 = q
    · have hkp : ¬kv.1 = p := by rw [hk]; exact hqp
      simp [hk, hkp, hqp, ih]
    · by_cases hp : kv.1 = p
      · simp [hk, hp, Ne.symm hqp, ih]
      · simp [hk, hp, ih]

theorem filter_map_update_eq {l : List (String × FileChangeEvent)} {p : String}
    (hnd : (l.map Prod.fst).Nodup) (hmem : ∃ kv ∈ l, kv.1 = p)
    (event : FileChangeEvent) :
    ((l.map (fun kv => if kv.1 = p then (kv.1, event) else kv)).filter
        (fun kv => kv.1 = p)).map (fun kv => kv.2) = [event] := by
  induction l with
  | nil => simp at hmem
  | cons kv rest ih =>
    have hnd' : kv.1 ∉ rest.map Prod.fst ∧ (rest.map Prod.fst).Nodup := by
      simpa using hnd
    simp only [List.map_cons, List.filter_cons]
    by_cases hk : kv.1 = p
    · have hrest : (rest.map (fun kv => if kv.1 = p then (kv.1, event) else kv)).filter
          (fun kv => kv.1 = p) = [] := by
        rw [List.filter_eq_nil_iff]
        intro kv' hkv'
        rw [List.mem_map] at hkv'
        obtain ⟨kv0, hkv0, heq⟩ := hkv'
        have hfst : kv'.1 = kv0.1 := by
          rw [← heq]
          by_cases h0 : kv0.1 = p <;> simp [h0]
        simp only [decide_eq_true_eq, hfst]
        intro hp0
        apply hnd'.1
        have hm0 : kv0.1 ∈ rest.map Prod.fst := List.mem_map.mpr ⟨kv0, hkv0, rfl⟩
        rwa [hp0, ← hk] at hm0
      simp [hk, hrest]
    · have hmem' : ∃ kv' ∈ rest, kv'.1 = p := by
        obtain ⟨kv', hkv', hp'⟩ := hmem
        rcases List.mem_cons.mp hkv' with h | h
        · exact absurd (h ▸ hp') hk
        · exact ⟨kv', h, hp'⟩
      simpa [hk] using ih hnd'.2 hmem'

theorem queueEvent_filter_eq {pendingEvents : List (String × FileChangeEvent)}
    (hnd : (pendingEvents.map Prod.fst).Nodup) {event : FileChangeEvent} {p : String}
    (he : event.path = p) :
    ((InotifyWatcher.queueEvent pendingEvents event).filter
        (fun kv => kv.1 = p)).map (fun kv => kv.2) = [event] := by
  subst he
  unfold InotifyWatcher.queueEvent
  split_ifs with hany
  · refine filter_map_update_eq hnd ?_ event
    rw [List.any_eq_true] at hany
    obtain ⟨kv, hkv, hk⟩ := hany
    exact ⟨kv, hkv, by simpa using hk⟩
  · rw [List.filter_append]
    have h1 : pendingEvents.filter (fun kv => kv.1 = event.path) = [] := by
      rw [List.filter_eq_nil_iff]
      intro kv hkv
      simp only [decide_eq_true_eq]
      intro hk
      exact hany (List.any_eq_true.mpr ⟨kv, hkv, by simp [hk]⟩)
    rw [h1]
    simp

theorem queueEvent_filter_ne {pendingEvents : List (String × FileChangeEvent)}
    {event : FileChangeEvent} {p : String} (he : event.path ≠ p) :
    (InotifyWatcher.queueEvent pendingEvents event).filter (fun kv => kv.1 = p) =
      pendingEvents.filter (fun kv => kv.1 = p) := by
  unfold InotifyWatcher.queueEvent
  split_ifs with hany
  · exact filter_map_update_ne he event
  · rw [List.filter_append]
    simp [he]

theorem queueEvents_filter (p : String) (events : List FileChangeEvent) :
    ∀ pendingEvents, PendingInv pendingEvents →
    ((InotifyWatcher.queueEvents pendingEvents events).filter
        (fun kv => kv.1 = p)).map (fun kv => kv.2) =
      (match (events.filter (fun ev => ev.path = p)).getLast? with
        | some ev => [ev]
        | none =>
            (pendingEvents.filter (fun kv => kv.1 = p)).map (fun kv => kv.2)) := by
  induction events with
  | nil =>
    intro pendingEvents _
    simp [InotifyWatcher.queueEvents]
  | cons e rest ih =>
    intro pendingEvents hInv
    have hInv' := queueEvent_inv hInv e
    have hq : InotifyWatcher.queueEvents pendingEvents (e :: rest) =
        InotifyWatcher.queueEvents (InotifyWatcher.queueEvent pendingEvents e) rest := rfl
    rw [hq, ih _ hInv']
    by_cases he : e.path = p
    · have hd : decide (e.path = p) = true := by simp [he]
      rw [List.filter_cons, if_pos hd]
      cases hl : (rest.filter (fun ev => ev.path = p)).getLast? with
      | some ev => simp [List.getLast?_cons, hl]
      | none =>
        have hnil : rest.filter (fun ev => decide (ev.path = p)) = [] :=
          List.getLast?_eq_none_iff.mp hl
        rw [hnil]
        simpa using queueEvent_filter_eq hInv.1 he
    · have hd : decide (e.path = p) = false := by simp [he]
      rw [List.filter_cons, hd]
      simp only [Bool.false_eq_true, if_false]
      cases hl : (rest.filter (fun ev => ev.path = p)).getLast? with
      | some ev => simp [hl]
      | none =>
        simp only [hl]
        rw [queueEvent_filter_ne he]

/-- C3: starting from an empty pending map (a fresh quiet window), queueing
any sequence of accepted events and flushing yields a batch whose events on
path `p` are exactly the last event received on `p` in the window — in
particular exactly one event for `p` whenever some event on `p` arrived. -/
theorem aggregator_last_writer_wins (events : List FileChangeEvent) (p : String) :
    ((InotifyWatcher.flushEvents (InotifyWatcher.queueEvents [] events)).filter
        (fun ev => ev.path = p) =
      ((events.filter (fun ev => ev.path = p)).getLast?).toList) ∧
    ((∃ ev ∈ events, ev.path = p) →
      ((InotifyWatcher.flushEvents (InotifyWatcher.queueEvents [] events)).filter
          (fun ev => ev.path = p)).length = 1) := by
  have hInv : PendingInv [] := ⟨List.nodup_nil, by simp⟩
  have hcons := (queueEvents_inv hInv events).2
  have h1 := flush_filter_eq hcons p
  have h2 := queueEvents_filter p events [] hInv
  constructor
  · rw [h1, h2]
    cases hl : (events.filter (fun ev => ev.path = p)).getLast? <;> rfl
  · intro hex
    rw [h1, h2]
    obtain ⟨ev, hev, hp⟩ := hex
    have hne : events.filter (fun ev => ev.path = p) ≠ [] := by
      intro hnil
      have hm : ev ∈ events.filter (fun ev => ev.path = p) :=
        List.mem_filter.mpr ⟨hev, decide_eq_true hp⟩
      rw [hnil] at hm
      simp at hm
    obtain ⟨a, ha⟩ := Option.isSome_iff_exists.mp (List.getLast?_isSome.mpr hne)
    simp [ha]

/-- Two rapid events on the same path inside one window. -/
def eventA1 : FileChangeEvent := ⟨FileChangeType.create, "a.txt", 1⟩

/-- The later event on the same path. -/
def eventA2 : FileChangeEvent := ⟨FileChangeType.modify, "a.txt", 2⟩

/-- Witness for C3: with a create followed by a modify of `a.txt` in one
window, the flushed batch carries exactly one event for `a.txt`. -/
theorem aggregator_last_writer_wins_witness :
    ((InotifyWatcher.flushEvents (InotifyWatcher.queueEvents [] [eventA1, eventA2])).filter
        (fun ev => ev.path = "a.txt")).length = 1 :=
  (aggregator_last_writer_wins [eventA1, eventA2] "a.txt").2
    ⟨eventA2, by simp, by decide⟩

/-- Source `SyncService.createIncrementalSyncJob` (the generated id supplied by the
caller, `SyncJob.generateId` being clock- and randomness-based). -/
def createIncrementalSyncJob (jobId : String) (profile : Profile)
    (files : List String) : SyncJob :=
  SyncJob.make jobId profile files (some SyncStrategy.incremental)

/-- Outcome oracle for `syncService.sync(job)`: the structured `SyncResult`
reduced to the fields `handleFileChanges` consults. -/
inductive SyncOutcome where
  | success (filesTransferred bytesTransferred : Nat)
  | failure (errors : List String)
deriving DecidableEq, Repr

/-- The default `maxRetries` of `SyncStateMachine`. -/
def defaultMaxRetries : Nat := 3

/-- Source `SyncStateMachine.canRetry`. -/
def SyncStateMachine.canRetry (m : SyncStateMachine) : Bool :=
  m.retryCount < defaultMaxRetries

/-- What `handleFileChanges` observes of one call: the machine afterwards,
the jobs it created and announced via `emitSyncStarted`, and how many
transfers it handed to the sync service. -/
structure HandleResult where
  machine : SyncStateMachine
  jobsStarted : List SyncJob
  transfersPerformed : Nat
deriving DecidableEq, Repr

/-- The synchronous transition of `SyncOrchestrator.scheduleRecovery` (the
delayed re-entry into `watching` happens later, outside this call). -/
def scheduleRecoveryTransition (m : SyncStateMachine) : SyncStateMachine :=
  (m.transition SyncState.recovering TransitionContext.none).2

/-- The catch block of `SyncOrchestrator.handleFileChanges`: transition to
`error` with the message, then schedule recovery while the retry budget
lasts. -/
def handleSyncFailure (m : SyncStateMachine) (message : String) : SyncStateMachine :=
  let m2 := (m.transition SyncState.error
    { profile := Option.none, error := some message }).2
  if m2.canRetry then scheduleRecoveryTransition m2 else m2

/-- Source `SyncOrchestrator.handleFileChanges`: a batch arriving while the machine
is not in `watching` returns immediately; otherwise transition to `syncing`,
create and start one incremental job for the changed paths, run it, and
return to `watching` on success or take the error/recovery path on
failure. -/
def handleFileChanges (m : SyncStateMachine) (events : List FileChangeEvent)
    (jobId : String) (outcome : SyncOutcome) : HandleResult :=
  if m.state ≠ SyncState.watching then
    { machine := m, jobsStarted := [], transfersPerformed := 0 }
  else
    let files := events.map (fun e => e.path)
    let m1 := (m.transition SyncState.syncing TransitionContext.none).2
    match m1.profile with
    | none =>
      { machine := handleSyncFailure m1 "No active profile",
        jobsStarted := [], transfersPerformed := 0 }
    | some profile =>
      let job := createIncrementalSyncJob jobId profile files
      match outcome with
      | SyncOutcome.success _ _ =>
        { machine := (m1.transition SyncState.watching TransitionContext.none).2,
          jobsStarted := [job], transfersPerformed := 1 }
      | SyncOutcome.failure errors =>
        { machine := handleSyncFailure m1 (String.intercalate "; " errors),
          jobsStarted := [job], transfersPerformed := 1 }

/-- C2: a change batch delivered while the machine is in any state other
than `watching` (in particular `syncing`) creates no job, performs no
transfer and leaves the machine untouched. -/
theorem handleFileChanges_ignored_when_not_watching (m : SyncStateMachine)
    (events : List FileChangeEvent) (jobId : String) (outcome : SyncOutcome)
    (h : m.state ≠ SyncState.watching) :
    handleFileChanges m events jobId outcome =
      { machine := m, jobsStarted := [], transfersPerformed := 0 } := by
  unfold handleFileChanges
  simp [h]

/-- The machine mid-sync. -/
def syncingMachine : SyncStateMachine :=
  { connectingMachine with state := SyncState.syncing }

/-- Witness for C2: a batch arriving while `syncing` is dropped whole. -/
theorem handleFileChanges_ignored_witness :
    handleFileChanges syncingMachine [eventA1] "sync_3"
        (SyncOutcome.success 1 10) =
      { machine := syncingMachine, jobsStarted := [], transfersPerformed := 0 } :=
  handleFileChanges_ignored_when_not_watching syncingMachine [eventA1] "sync_3"
    (SyncOutcome.success 1 10) (by decide)

/-- Operator interaction oracle for `CredentialManager.promptForPassword`:
`inputBoxResult` is `none` when the input box is dismissed and `some s` when
`s` is submitted; `savePickResult` is the quick-pick selection (`none` when
dismissed). -/
structure PromptInteraction where
  inputBoxResult : Option String
  savePickResult : Option String
deriving DecidableEq, Repr

/-- Observable outcome of `promptForPassword`: the returned value, whether
the save offer (the quick pick) was presented, and what was persisted via
`setPassword`, if anything. -/
structure PromptOutcome where
  returned : Option String
  offerPresented : Bool
  stored : Option String
deriving DecidableEq, Repr

/-- Source `CredentialManager.promptForPassword`: an undefined input-box result
(dismissal) returns null immediately; a truthy (non-empty) password
triggers the save offer, storing only on "Yes, save password"; the submitted
password — empty included — is then returned. -/
def promptForPassword (interaction : PromptInteraction) : PromptOutcome :=
  match interaction.inputBoxResult with
  | none => { returned := none, offerPresented := false, stored := none }
  | some password =>
    if password ≠ "" then
      if interaction.savePickResult = some "Yes, save password" then
        { returned := some password, offerPresented := true, stored := some password }
      else
        { returned := some password, offerPresented := true, stored := none }
    else
      { returned := some password, offerPresented := false, stored := none }

/-- C10: `promptForPassword` returns null exactly on dismissal; an empty
submission is returned as the empty string with no save offer and nothing
stored; the save offer appears exactly for non-empty submissions; hence
whatever is stored is never the empty string. -/
theorem promptForPassword_spec (interaction : PromptInteraction) :
    ((promptForPassword interaction).returned = none ↔
      interaction.inputBoxResult = none) ∧
    (interaction.inputBoxResult = some "" →
      promptForPassword interaction =
        { returned := some "", offerPresented := false, stored := none }) ∧
    ((promptForPassword interaction).offerPresented = true ↔
      ∃ password, interaction.inputBoxResult = some password ∧ password ≠ "") ∧
    ((promptForPassword interaction).stored ≠ none →
      (promptForPassword interaction).returned ≠ some "") := by
  unfold promptForPassword
  cases hin : interaction.inputBoxResult with
  | none => simp
  | some password =>
    by_cases hp : password = ""
    · subst hp; simp
    · by_cases hs : interaction.savePickResult = some "Yes, save password" <;>
        simp [hp, hs]

/-- Witness for C10: submitting the empty string returns the empty string
(not null), with no save offer and nothing stored. -/
theorem promptForPassword_spec_witness :
    promptForPassword { inputBoxResult := some "", savePickResult := Option.none } =
      { returned := some "", offerPresented := false, stored := none } :=
  (promptForPassword_spec
    { inputBoxResult := some "", savePickResult := Option.none }).2.1 rfl

/-- Witness for C5 at the demo profile. -/
theorem buildIncrementalSync_nil_eq_full_witness :
    buildIncrementalSync demoProfile [] = buildFullSync demoProfile :=
  buildIncrementalSync_nil_eq_full demoProfile

/-- Witness for the amended C9 at the job the full strategy declines: a
strategy accepting it is still selected. -/
theorem selectStrategy_total_witness :
    strategyCanHandle (selectStrategy incrementalJob) incrementalJob = true :=
  (selectStrategy_total incrementalJob).2
